import Mathlib

/-! Verification development for the AI-powered product recommendation
repository.  The definitions below are a shallow embedding of
src/lib/ai-recommendations.ts: the AIRecommendationService class and the
InteractionTracker class.  External effects (the generative model, the
remote database, the clock and the random source) are passed as explicit
oracle parameters: a thrown JavaScript exception at an external call is the
Except.error case of the corresponding oracle field, a response whose text
contains no parseable JSON (or whose extracted JSON fails to parse) is the
Except.ok none case, and a successfully parsed value is Except.ok (some v).
Prompt strings sent to the model only influence the model's answer, which
the oracle already quantifies over, so prompt construction is elided.
JavaScript numbers are modelled as rationals, except the Math.log based
trending key, which is modelled over the reals. -/

/-- Aggregate rating of a product (the ratings field of the Product
interface in ai-recommendations.ts). -/
structure Ratings where
  average : ℚ
  count : ℕ
deriving DecidableEq

/-- Product interface from ai-recommendations.ts. -/
structure Product where
  id : String
  name : String
  category : String
  subcategory : String
  price : ℚ
  originalPrice : ℚ
  description : String
  features : List String
  tags : List String
  brand : String
  ratings : Ratings
deriving DecidableEq

/-- Interaction type enumeration (view, like, purchase, cart_add,
wishlist_add). -/
inductive InteractionType where
  | view
  | like
  | purchase
  | cart_add
  | wishlist_add
deriving DecidableEq

/-- Optional metadata attached to an interaction (the metadata field of the
tracker's UserInteraction interface). -/
structure InteractionMetadata where
  searchQuery : Option String := none
  category : Option String := none
  price : Option ℚ := none
  referrer : Option String := none
  durationOnProduct : Option ℚ := none
deriving DecidableEq

/-- UserInteraction interface from the interaction tracker module;
timestamps are milliseconds since the epoch. -/
structure UserInteraction where
  id : String
  userId : String
  productId : String
  interactionType : InteractionType
  timestamp : ℕ
  sessionId : String
  metadata : InteractionMetadata
deriving DecidableEq

/-- UserPreference interface (shared by the service and the tracker). -/
structure UserPreference where
  userId : String
  preferredCategories : List String
  preferredBrands : List String
  priceRange : ℚ × ℚ
  preferredFeatures : List String
  interactionHistory : List UserInteraction
  lastUpdated : ℕ
deriving DecidableEq

/-- UserAnalysis interface: the ephemeral behaviour analysis produced by
the model (or the default substituted on parse failure). -/
structure UserAnalysis where
  intent : String
  categoryStrength : ℚ
  brandLoyalty : ℚ
  priceSensitivity : ℚ
  topFeatures : List String
  behaviorPatterns : List String
deriving DecidableEq

/-- Recommendation interface: one output unit of the service. -/
structure Recommendation where
  productId : String
  score : ℚ
  reason : String
  category : String
deriving DecidableEq

/-- Behaviour of the external generative model across the four model calls
one generateRecommendations invocation can make.  Except.error means the
generateContent call threw; Except.ok none means the response text yielded
no parseable JSON; Except.ok (some v) is a parsed value. -/
structure ModelOracle where
  analyze : Except Unit (Option UserAnalysis)
  content : Except Unit (Option (List Recommendation))
  collab : Except Unit (Option (List Recommendation))
  rank : Except Unit (Option (List Recommendation))

/-- Stable insert for a descending-by-key sorted list: the new element
passes every element whose key ties with or exceeds its own, matching the
stability of JavaScript Array.prototype.sort with comparator
(a, b) => key b - key a when elements are inserted left to right. -/
def insertDescBy {α β : Type} [LinearOrder β] (key : α → β) (x : α) :
    List α → List α
  | [] => [x]
  | y :: ys => if key y < key x then x :: y :: ys else y :: insertDescBy key x ys

/-- Stable sort by descending key (model of sort with comparator
(a, b) => key b - key a). -/
def sortDescBy {α β : Type} [LinearOrder β] (key : α → β) (l : List α) :
    List α :=
  l.foldl (fun acc x => insertDescBy key x acc) []

/-- Stable sort by ascending key (model of sort with comparator
(a, b) => key a - key b), obtained by sorting descending in the dual
order. -/
def sortAscBy {α β : Type} [LinearOrder β] (key : α → β) (l : List α) :
    List α :=
  sortDescBy (fun a => OrderDual.toDual (key a)) l

/-- Helper for dedupByProductId: keep the elements whose productId is not
in seen, recording each kept productId. -/
def dedupAux (seen : List String) : List Recommendation → List Recommendation
  | [] => []
  | r :: rs =>
    if r.productId ∈ seen then dedupAux seen rs
    else r :: dedupAux (r.productId :: seen) rs

/-- De-duplication by productId keeping the first occurrence: model of the
filter over findIndex in combineAndRankRecommendations. -/
def dedupByProductId (l : List Recommendation) : List Recommendation :=
  dedupAux [] l

/-- Default analysis substituted when the behaviour-analysis response fails
to parse (analyzeUserBehavior, parse-failure branch). -/
def defaultAnalysis (userPreferences : UserPreference) : UserAnalysis :=
  { intent := "browsing"
    categoryStrength := 5
    brandLoyalty := 5
    priceSensitivity := 5
    topFeatures := userPreferences.preferredFeatures.take 3
    behaviorPatterns := ["general_browsing"] }

/-- AIRecommendationService.analyzeUserBehavior: the generateContent call
sits outside the try block, so a thrown model call propagates; a parse
failure yields the default analysis. -/
def analyzeUserBehavior (userPreferences : UserPreference) (o : ModelOracle) :
    Except Unit UserAnalysis :=
  match o.analyze with
  | .error e => .error e
  | .ok none => .ok (defaultAnalysis userPreferences)
  | .ok (some a) => .ok a

/-- Product ids appearing in the user's interaction history. -/
def interactedProductIds (userPreferences : UserPreference) : List String :=
  userPreferences.interactionHistory.map (fun i => i.productId)

/-- AIRecommendationService.getContentBasedRecommendations: returns []
before any model call when no catalog product matches the interaction
history; otherwise a thrown model call propagates and a parse failure
yields []. -/
def getContentBasedRecommendations (products : List Product)
    (userPreferences : UserPreference) (userAnalysis : UserAnalysis)
    (o : ModelOracle) : Except Unit (List Recommendation) :=
  let ids := interactedProductIds userPreferences
  let interactedProducts := products.filter (fun p => ids.contains p.id)
  if interactedProducts.length = 0 then .ok []
  else
    match o.content with
    | .error e => .error e
    | .ok none => .ok []
    | .ok (some recs) => .ok recs

/-- AIRecommendationService.getCollaborativeRecommendations: always calls
the model; a thrown call propagates and a parse failure yields []. -/
def getCollaborativeRecommendations (products : List Product)
    (userPreferences : UserPreference) (userAnalysis : UserAnalysis)
    (o : ModelOracle) : Except Unit (List Recommendation) :=
  match o.collab with
  | .error e => .error e
  | .ok none => .ok []
  | .ok (some recs) => .ok recs

/-- AIRecommendationService.combineAndRankRecommendations: concatenate,
de-duplicate by productId keeping first occurrence, then ask the model to
re-rank; a thrown call propagates, a parse failure falls back to sorting
the de-duplicated list by descending score, and a parsed array is returned
as received. -/
def combineAndRankRecommendations
    (contentRecommendations collaborativeRecommendations : List Recommendation)
    (userAnalysis : UserAnalysis) (o : ModelOracle) :
    Except Unit (List Recommendation) :=
  let uniqueRecommendations :=
    dedupByProductId (contentRecommendations ++ collaborativeRecommendations)
  match o.rank with
  | .error e => .error e
  | .ok none => .ok (sortDescBy (fun r => r.score) uniqueRecommendations)
  | .ok (some recs) => .ok recs

/-- Recommendation emitted for one product by getFallbackRecommendations:
score is the rating average rescaled from the 5-star to the 100-point
scale, with a category-based reason and the fallback tag. -/
def fallbackRec (p : Product) : Recommendation :=
  { productId := p.id
    score := p.ratings.average * 20
    reason := "Recommended based on your interest in " ++ p.category
    category := "fallback" }

/-- AIRecommendationService.getFallbackRecommendations: exclude
already-interacted product ids, keep preferred categories, sort by
descending rating average, truncate, and emit one fallbackRec per kept
product. -/
def getFallbackRecommendations (products : List Product)
    (userPreferences : UserPreference) (maxRecommendations : ℕ) :
    List Recommendation :=
  let ids := interactedProductIds userPreferences
  let availableProducts := products.filter (fun p => !(ids.contains p.id))
  ((sortDescBy (fun p => p.ratings.average)
      (availableProducts.filter
        (fun p => userPreferences.preferredCategories.contains p.category))).take
    maxRecommendations).map fallbackRec

/-- Body of the try block of generateRecommendations: the four stages run
sequentially and a throw at any consulted model call propagates. -/
def recommendationPipeline (products : List Product)
    (userPreferences : UserPreference) (o : ModelOracle) :
    Except Unit (List Recommendation) :=
  match analyzeUserBehavior userPreferences o with
  | .error e => .error e
  | .ok userAnalysis =>
    match getContentBasedRecommendations products userPreferences userAnalysis o with
    | .error e => .error e
    | .ok contentRecommendations =>
      match getCollaborativeRecommendations products userPreferences userAnalysis o with
      | .error e => .error e
      | .ok collaborativeRecommendations =>
        combineAndRankRecommendations contentRecommendations
          collaborativeRecommendations userAnalysis o

/-- AIRecommendationService.generateRecommendations: run the pipeline,
truncate to maxRecommendations on success, and degrade to
getFallbackRecommendations when the pipeline throws.  The function is
total: no input or model behaviour makes it raise. -/
def generateRecommendations (userId : String) (products : List Product)
    (userPreferences : UserPreference) (maxRecommendations : ℕ)
    (o : ModelOracle) : List Recommendation :=
  match recommendationPipeline products userPreferences o with
  | .ok combinedRecommendations => combinedRecommendations.take maxRecommendations
  | .error _ => getFallbackRecommendations products userPreferences maxRecommendations

/-- Sort key of the getTrendingProducts fallback:
ratings.average * Math.log(ratings.count + 1). -/
noncomputable def trendingFallbackKey (p : Product) : ℝ :=
  (p.ratings.average : ℝ) * Real.log ((p.ratings.count : ℝ) + 1)

/-- Recommendation emitted for one product by the getTrendingProducts
fallback. -/
def trendingRec (p : Product) : Recommendation :=
  { productId := p.id
    score := p.ratings.average * 20
    reason := "Trending due to high rating (" ++ toString p.ratings.average
      ++ ") and " ++ toString p.ratings.count ++ " reviews"
    category := "trending" }

/-- AIRecommendationService.getTrendingProducts: the whole model call and
parse sit inside one try block, so both a throw and a parse failure reach
the fallback, which sorts all products by descending
average * log(count + 1), truncates, and scores average * 20. -/
noncomputable def getTrendingProducts (products : List Product)
    (maxResults : ℕ) (o : Except Unit (Option (List Recommendation))) :
    List Recommendation :=
  match o with
  | .ok (some recs) => recs
  | _ => ((sortDescBy trendingFallbackKey products).take maxResults).map trendingRec

/-- Recommendation emitted for one candidate by the getSimilarProducts
fallback, given the target product. -/
def similarRec (targetProduct p : Product) : Recommendation :=
  { productId := p.id
    score := 80 - |p.price - targetProduct.price| / 10
    reason := "Similar " ++ p.category ++ " product from " ++ p.brand
    category := "similar" }

/-- AIRecommendationService.getSimilarProducts: model call and parse in one
try block; the fallback keeps same-category products other than the target,
sorts by ascending absolute price difference, truncates, and scores
80 - |price difference| / 10 with no clamping. -/
def getSimilarProducts (targetProduct : Product) (allProducts : List Product)
    (maxResults : ℕ) (o : Except Unit (Option (List Recommendation))) :
    List Recommendation :=
  match o with
  | .ok (some recs) => recs
  | _ =>
    ((sortAscBy (fun p => |p.price - targetProduct.price|)
        (allProducts.filter
          (fun p => (p.id != targetProduct.id) && (p.category == targetProduct.category)))).take
      maxResults).map (similarRec targetProduct)

/-- Argument of InteractionTracker.trackInteraction: a UserInteraction with
the id and timestamp omitted (they are generated at store time). -/
structure TrackerInput where
  userId : String
  productId : String
  interactionType : InteractionType
  sessionId : String
  metadata : Option InteractionMetadata
deriving DecidableEq

/-- Interaction record built by trackInteractionLocal from its argument,
the generated random id, the current time and the tracker's session id. -/
def buildLocalInteraction (interaction : TrackerInput) (rid : String)
    (now : ℕ) (sessionId : String) : UserInteraction :=
  { id := rid
    userId := interaction.userId
    productId := interaction.productId
    interactionType := interaction.interactionType
    timestamp := now
    sessionId := sessionId
    metadata := interaction.metadata.getD {} }

/-- InteractionTracker.trackInteractionLocal acting on the stored list:
append the new interaction, then splice from the front down to the most
recent 1000 entries when the cap is exceeded. -/
def trackInteractionLocal (newInteraction : UserInteraction)
    (interactions : List UserInteraction) : List UserInteraction :=
  let pushed := interactions ++ [newInteraction]
  if 1000 < pushed.length then pushed.drop (pushed.length - 1000) else pushed

/-- External effects of one trackInteraction call: the auth lookup (threw /
no user / user id), the database insert (threw / error-field present means
false), the random id and the clock used by the local fallback. -/
structure TrackOracle where
  auth : Except Unit (Option String)
  insert : Except Unit Bool
  rid : String
  now : ℕ

/-- Observable outcome of one trackInteraction call: whether a remote
insert was issued, and the local fallback store afterwards. -/
structure TrackResult where
  remoteInsertAttempted : Bool
  store : List UserInteraction
deriving DecidableEq

/-- InteractionTracker.trackInteraction: resolve the authenticated user (a
null user logs a warning and returns, touching nothing); otherwise insert
remotely, and on a returned error or a thrown call mirror the event into
the local fallback store.  A thrown auth lookup also lands in the catch
block and writes locally. -/
def trackInteraction (interaction : TrackerInput) (o : TrackOracle)
    (sessionId : String) (store : List UserInteraction) : TrackResult :=
  match o.auth with
  | .error _ =>
    { remoteInsertAttempted := false
      store := trackInteractionLocal
        (buildLocalInteraction interaction o.rid o.now sessionId) store }
  | .ok none => { remoteInsertAttempted := false, store := store }
  | .ok (some _) =>
    match o.insert with
    | .ok true => { remoteInsertAttempted := true, store := store }
    | _ =>
      { remoteInsertAttempted := true
        store := trackInteractionLocal
          (buildLocalInteraction interaction o.rid o.now sessionId) store }

/-- Row of the user_preferences table as returned by the remote store;
every column may be null. -/
structure PreferenceRow where
  preferred_categories : Option (List String)
  preferred_brands : Option (List String)
  price_range_min : Option ℚ
  price_range_max : Option ℚ
  preferred_features : Option (List String)
  updated_at : Option ℕ
deriving DecidableEq

/-- Row of the user_interactions table as returned by the remote store. -/
structure InteractionRow where
  id : String
  product_id : String
  interaction_type : InteractionType
  created_at : ℕ
  session_id : String
  metadata : Option InteractionMetadata
deriving DecidableEq

/-- External effects of one getUserPreferences call: auth lookup, the
preference-row query, the interaction-history query, and the clock. -/
structure PrefsOracle where
  auth : Except Unit (Option String)
  prefRow : Except Unit (Option PreferenceRow)
  interactions : Except Unit (List InteractionRow)
  now : ℕ

/-- Local (browser-storage) state of the tracker: the user_interactions
item and the per-user user_preferences items. -/
structure LocalStore where
  interactions : List UserInteraction
  preferences : List (String × UserPreference)
deriving DecidableEq

/-- JavaScript truthiness of the template key userId || anonymous used for
the localStorage preference item. -/
def jsKeyOr (userId : Option String) : String :=
  match userId with
  | some u => if u = "" then "anonymous" else u
  | none => "anonymous"

/-- JavaScript or-else on an optional string id (empty string is falsy). -/
def jsOrId (userId : Option String) (authUser : Option String) :
    Option String :=
  match userId with
  | some u => if u = "" then authUser else some u
  | none => authUser

/-- JavaScript or-else on an optional numeric column (zero is falsy). -/
def jsOrQ (v : Option ℚ) (d : ℚ) : ℚ :=
  match v with
  | some x => if x = 0 then d else x
  | none => d

/-- InteractionTracker.getDefaultPreferences: the anonymous preference
record with empty preference lists and price range 0 to 3000. -/
def getDefaultPreferences (now : ℕ) : UserPreference :=
  { userId := "anonymous"
    preferredCategories := []
    preferredBrands := []
    priceRange := (0, 3000)
    preferredFeatures := []
    interactionHistory := []
    lastUpdated := now }

/-- InteractionTracker.getUserPreferencesLocal: read the stored per-user
preference item, else the defaults. -/
def getUserPreferencesLocal (userId : Option String) (store : LocalStore)
    (now : ℕ) : UserPreference :=
  match store.preferences.lookup (jsKeyOr userId) with
  | some p => p
  | none => getDefaultPreferences now

/-- Reshape a remote interaction row into the UserInteraction entity. -/
def rowToInteraction (targetUserId : String) (r : InteractionRow) :
    UserInteraction :=
  { id := r.id
    userId := targetUserId
    productId := r.product_id
    interactionType := r.interaction_type
    timestamp := r.created_at
    sessionId := r.session_id
    metadata := r.metadata.getD {} }

/-- InteractionTracker.getUserPreferences: resolve the target identity
(explicit argument, else auth user, else the anonymous defaults), read the
preference row and the interaction history from the remote store, and on
any thrown remote call degrade to the local fallback. -/
def getUserPreferences (userId : Option String) (o : PrefsOracle)
    (store : LocalStore) : UserPreference :=
  match o.auth with
  | .error _ => getUserPreferencesLocal userId store o.now
  | .ok authUser =>
    match jsOrId userId authUser with
    | none => getDefaultPreferences o.now
    | some targetUserId =>
      match o.prefRow, o.interactions with
      | .ok preferences, .ok interactions =>
        { userId := targetUserId
          preferredCategories :=
            (preferences.bind (fun p => p.preferred_categories)).getD []
          preferredBrands :=
            (preferences.bind (fun p => p.preferred_brands)).getD []
          priceRange :=
            (jsOrQ (preferences.bind (fun p => p.price_range_min)) 0,
             jsOrQ (preferences.bind (fun p => p.price_range_max)) 3000)
          preferredFeatures :=
            (preferences.bind (fun p => p.preferred_features)).getD []
          interactionHistory := interactions.map (rowToInteraction targetUserId)
          lastUpdated := (preferences.bind (fun p => p.updated_at)).getD o.now }
      | _, _ => getUserPreferencesLocal userId store o.now

/-- InteractionTracker.getUserInteractions: filter the local store by
userId. -/
def getUserInteractions (userId : String) (store : LocalStore) :
    List UserInteraction :=
  store.interactions.filter (fun i => i.userId == userId)

/-- Accumulate one key into an insertion-ordered count table (model of the
JavaScript object used as accumulator in reduce). -/
def bumpCount {κ : Type} [BEq κ] (k : κ) : List (κ × ℕ) → List (κ × ℕ)
  | [] => [(k, 1)]
  | (k2, n) :: rest =>
    if k == k2 then (k2, n + 1) :: rest else (k2, n) :: bumpCount k rest

/-- JavaScript or-else on the optional metadata category (empty string is
falsy, so both a missing and an empty category count as Unknown). -/
def jsCategoryOr (c : Option String) : String :=
  match c with
  | some s => if s = "" then "Unknown" else s
  | none => "Unknown"

/-- JavaScript truthiness of metadata.durationOnProduct as used by the
session-duration filter (a zero duration is falsy and is excluded). -/
def jsTruthyDuration (d : Option ℚ) : Bool :=
  match d with
  | some q => q != 0
  | none => false

/-- Return shape of InteractionTracker.getUserAnalytics. -/
structure UserAnalytics where
  totalInteractions : ℕ
  interactionCounts : List (InteractionType × ℕ)
  categoryViews : List (String × ℕ)
  avgSessionDuration : ℚ
  recentActivity : ℕ
  preferredCategories : List String
  preferredBrands : List String
  priceRange : ℚ × ℚ
  accountAge : ℕ
deriving DecidableEq

/-- InteractionTracker.getUserAnalytics: aggregate the local interactions
of the user, and take the preference fields from getUserPreferences, which
reads the remote store. -/
def getUserAnalytics (userId : String) (o : PrefsOracle)
    (store : LocalStore) : UserAnalytics :=
  let interactions := getUserInteractions userId store
  let preferences := getUserPreferences (some userId) o store
  let interactionCounts :=
    interactions.foldl (fun acc i => bumpCount i.interactionType acc) []
  let categoryViews :=
    (interactions.filter
        (fun i => i.interactionType == InteractionType.view)).foldl
      (fun acc i => bumpCount (jsCategoryOr i.metadata.category) acc) []
  let sessionDurations :=
    (interactions.filter
        (fun i => jsTruthyDuration i.metadata.durationOnProduct)).map
      (fun i => i.metadata.durationOnProduct.getD 0)
  let avgSessionDuration : ℚ :=
    if sessionDurations.length = 0 then 0
    else sessionDurations.sum / (sessionDurations.length : ℚ)
  let weekAgo := o.now - 604800000
  let recentInteractions := interactions.filter (fun i => weekAgo < i.timestamp)
  { totalInteractions := interactions.length
    interactionCounts := interactionCounts
    categoryViews := categoryViews
    avgSessionDuration := avgSessionDuration
    recentActivity := recentInteractions.length
    preferredCategories := preferences.preferredCategories
    preferredBrands := preferences.preferredBrands
    priceRange := preferences.priceRange
    accountAge := preferences.lastUpdated }

/-- Whether an external call threw (is the Except.error case). -/
def isThrown {γ : Type} : Except Unit γ → Bool
  | .error _ => true
  | .ok _ => false

/-- Whether the content-based stage reaches its model call: it does exactly
when some catalog product matches the interaction history. -/
def contentStageConsulted (products : List Product)
    (userPreferences : UserPreference) : Prop :=
  (products.filter
    (fun p => (interactedProductIds userPreferences).contains p.id)).length ≠ 0

/-- The model behaviours under which the try block of
generateRecommendations throws: some model call the pipeline actually
issues raises (the content-stage call is only issued when that stage is
consulted). -/
def pipelineThrows (products : List Product)
    (userPreferences : UserPreference) (o : ModelOracle) : Prop :=
  isThrown o.analyze = true ∨
    (contentStageConsulted products userPreferences ∧ isThrown o.content = true) ∨
    isThrown o.collab = true ∨ isThrown o.rank = true

instance (products : List Product) (userPreferences : UserPreference) :
    Decidable (contentStageConsulted products userPreferences) := by
  unfold contentStageConsulted
  infer_instance

instance (products : List Product) (userPreferences : UserPreference)
    (o : ModelOracle) :
    Decidable (pipelineThrows products userPreferences o) := by
  unfold pipelineThrows
  infer_instance

/-- Candidate list the collaborative stage hands to the merge step for a
given non-throwing model behaviour. -/
def collabStageList (o : ModelOracle) : List Recommendation :=
  match o.collab with
  | .ok (some recs) => recs
  | _ => []

/-- Fixture: a user preference record with empty history and no preferred
categories. -/
def emptyPrefs : UserPreference :=
  { userId := "u"
    preferredCategories := []
    preferredBrands := []
    priceRange := (0, 3000)
    preferredFeatures := []
    interactionHistory := []
    lastUpdated := 0 }

/-- Fixture: the recommendation an adversarial re-rank reply repeats. -/
def dupRec : Recommendation :=
  { productId := "p1", score := 50, reason := "dup", category := "collaborative" }

/-- Fixture: model behaviour whose re-rank reply lists the same product
twice; no call throws. -/
def badRankOracle : ModelOracle :=
  { analyze := .ok none
    content := .ok (some [])
    collab := .ok (some [])
    rank := .ok (some [dupRec, dupRec]) }

/-- Fixture: model behaviour where every call throws. -/
def throwingOracle : ModelOracle :=
  { analyze := .error ()
    content := .error ()
    collab := .error ()
    rank := .error () }

/-- Fixture: model behaviour where every reply is prose without JSON. -/
def proseOracle : ModelOracle :=
  { analyze := .ok none
    content := .ok none
    collab := .ok none
    rank := .ok none }

/-- Fixture: a product with the given id, category, price and rating. -/
def mkProduct (id category : String) (price average : ℚ) (count : ℕ) :
    Product :=
  { id := id
    name := id
    category := category
    subcategory := ""
    price := price
    originalPrice := price
    description := ""
    features := []
    tags := []
    brand := "b"
    ratings := { average := average, count := count } }

/-- Fixture: target product priced 100 dollars. -/
def target100 : Product := mkProduct "t" "cat" 100 4 10

/-- Fixture: same-category candidate priced 90 dollars. -/
def p90 : Product := mkProduct "p90" "cat" 90 4 10

/-- Fixture: same-category candidate priced 150 dollars. -/
def p150 : Product := mkProduct "p150" "cat" 150 4 10

/-- Fixture: same-category candidate priced 2000 dollars. -/
def pFar : Product := mkProduct "pFar" "cat" 2000 4 10

/-- Fixture: product with rating average 4.0 over 100 reviews. -/
def prodA : Product := mkProduct "A" "cat" 10 4 100

/-- Fixture: product with rating average 4.5 over 5 reviews. -/
def prodB : Product := mkProduct "B" "cat" 10 (9 / 2) 5

/-- Fixture: preference row whose only populated column is the preferred
categories. -/
def prefRowWith (cats : List String) : PreferenceRow :=
  { preferred_categories := some cats
    preferred_brands := none
    price_range_min := none
    price_range_max := none
    preferred_features := none
    updated_at := none }

/-- Fixture: remote-store behaviour where user u1 is authenticated, the
preference row holds the given categories, and the history is empty. -/
def prefsOracleWith (cats : List String) : PrefsOracle :=
  { auth := .ok (some "u1")
    prefRow := .ok (some (prefRowWith cats))
    interactions := .ok []
    now := 0 }

/-- Fixture: empty local browser store. -/
def emptyLocalStore : LocalStore := { interactions := [], preferences := [] }

/-- Fixture: the nth tracked event. -/
def mkEvt (n : ℕ) : UserInteraction :=
  { id := toString n
    userId := "u"
    productId := toString n
    interactionType := InteractionType.view
    timestamp := n
    sessionId := "s"
    metadata := {} }

/-- Fixture: 1001 distinct events. -/
def evtList : List UserInteraction := (List.range 1001).map mkEvt

/-- Fixture: tracker-call behaviour where auth resolves to no user. -/
def noUserOracle : TrackOracle :=
  { auth := .ok none, insert := .ok true, rid := "r", now := 0 }

/-- Fixture: a tracked interaction argument. -/
def sampleInput : TrackerInput :=
  { userId := "u"
    productId := "p"
    interactionType := InteractionType.view
    sessionId := "s"
    metadata := none }

/-- Membership-preserving permutation of a stable descending insert. -/
theorem insertDescBy_perm {α β : Type} [LinearOrder β] (key : α → β) (x : α) :
    (l : List α) → (insertDescBy key x l).Perm (x :: l)
  | [] => List.Perm.refl _
  | y :: ys => by
    unfold insertDescBy
    by_cases h : key y < key x
    · rw [if_pos h]
    · rw [if_neg h]
      exact ((insertDescBy_perm key x ys).cons y).trans (List.Perm.swap x y ys)

/-- Folding stable descending inserts over a list permutes the
concatenation of the accumulator and the list. -/
theorem foldl_insertDescBy_perm {α β : Type} [LinearOrder β] (key : α → β) :
    (l acc : List α) →
      (l.foldl (fun acc x => insertDescBy key x acc) acc).Perm (acc ++ l)
  | [], acc => by simp
  | x :: xs, acc => by
    simp only [List.foldl_cons]
    refine (foldl_insertDescBy_perm key xs (insertDescBy key x acc)).trans ?_
    refine (((insertDescBy_perm key x acc).append_right xs).trans ?_)
    exact List.perm_middle.symm

/-- The stable descending sort permutes its input. -/
theorem sortDescBy_perm {α β : Type} [LinearOrder β] (key : α → β)
    (l : List α) : (sortDescBy key l).Perm l := by
  simpa using foldl_insertDescBy_perm key l []

/-- Stable descending insert preserves descending sortedness. -/
theorem insertDescBy_pairwise {α β : Type} [LinearOrder β] (key : α → β)
    (x : α) : (l : List α) → l.Pairwise (fun a b => key b ≤ key a) →
      (insertDescBy key x l).Pairwise (fun a b => key b ≤ key a)
  | [], _ => by simp [insertDescBy]
  | y :: ys, h => by
    rw [List.pairwise_cons] at h
    obtain ⟨hy, hys⟩ := h
    unfold insertDescBy
    by_cases hxy : key y < key x
    · rw [if_pos hxy]
      refine List.Pairwise.cons ?_ (List.Pairwise.cons hy hys)
      intro z hz
      rcases List.mem_cons.mp hz with rfl | hz2
      · exact le_of_lt hxy
      · exact le_trans (hy z hz2) (le_of_lt hxy)
    · rw [if_neg hxy]
      refine List.Pairwise.cons ?_ (insertDescBy_pairwise key x ys hys)
      intro z hz
      rcases List.mem_cons.mp ((insertDescBy_perm key x ys).mem_iff.mp hz) with rfl | hz2
      · exact le_of_not_lt hxy
      · exact hy z hz2

/-- The stable descending sort yields a descending-sorted list. -/
theorem sortDescBy_pairwise {α β : Type} [LinearOrder β] (key : α → β)
    (l : List α) : (sortDescBy key l).Pairwise (fun a b => key b ≤ key a) := by
  have main : ∀ (l acc : List α), acc.Pairwise (fun a b => key b ≤ key a) →
      (l.foldl (fun acc x => insertDescBy key x acc) acc).Pairwise
        (fun a b => key b ≤ key a) := by
    intro l
    induction l with
    | nil => intro acc h; simpa using h
    | cons x xs ih =>
      intro acc h
      simp only [List.foldl_cons]
      exact ih _ (insertDescBy_pairwise key x acc h)
  simpa [sortDescBy] using main l [] (by simp)

/-- The stable ascending sort permutes its input. -/
theorem sortAscBy_perm {α β : Type} [LinearOrder β] (key : α → β)
    (l : List α) : (sortAscBy key l).Perm l :=
  sortDescBy_perm _ l

/-- The stable ascending sort yields an ascending-sorted list. -/
theorem sortAscBy_pairwise {α β : Type} [LinearOrder β] (key : α → β)
    (l : List α) : (sortAscBy key l).Pairwise (fun a b => key a ≤ key b) :=
  (sortDescBy_pairwise (fun a => OrderDual.toDual (key a)) l).imp
    (fun h => OrderDual.toDual_le_toDual.mp h)

/-- Elements kept by dedupAux have pairwise-distinct product ids and avoid
the seen list. -/
theorem dedupAux_pairwise (seen : List String) :
    (l : List Recommendation) →
      (dedupAux seen l).Pairwise (fun a b => a.productId ≠ b.productId) ∧
        ∀ r ∈ dedupAux seen l, r.productId ∉ seen
  | [] => by simp [dedupAux]
  | r :: rs => by
    unfold dedupAux
    by_cases h : r.productId ∈ seen
    · rw [if_pos h]
      exact dedupAux_pairwise seen rs
    · rw [if_neg h]
      obtain ⟨hpw, hseen⟩ := dedupAux_pairwise (r.productId :: seen) rs
      refine ⟨List.Pairwise.cons ?_ hpw, ?_⟩
      · intro z hz heq
        exact hseen z hz (heq ▸ List.mem_cons_self _ _)
      · intro z hz
        rcases List.mem_cons.mp hz with rfl | hz2
        · exact h
        · intro hmem
          exact hseen z hz2 (List.mem_cons_of_mem _ hmem)

/-- De-duplication by productId yields pairwise-distinct product ids. -/
theorem dedupByProductId_pairwise (l : List Recommendation) :
    (dedupByProductId l).Pairwise (fun a b => a.productId ≠ b.productId) :=
  (dedupAux_pairwise [] l).1

/-- Every element kept by dedupAux comes from the input list. -/
theorem dedupAux_subset (seen : List String) :
    (l : List Recommendation) → ∀ r ∈ dedupAux seen l, r ∈ l
  | [] => by simp [dedupAux]
  | r :: rs => by
    unfold dedupAux
    by_cases h : r.productId ∈ seen
    · rw [if_pos h]
      intro z hz
      exact List.mem_cons_of_mem _ (dedupAux_subset seen rs z hz)
    · rw [if_neg h]
      intro z hz
      rcases List.mem_cons.mp hz with rfl | hz2
      · exact List.mem_cons_self _ _
      · exact List.mem_cons_of_mem _ (dedupAux_subset _ rs z hz2)

/-- Truncating the score-sorted de-duplicated list keeps product ids
pairwise distinct. -/
theorem pairwise_take_sorted_dedup (n : ℕ) (l : List Recommendation) :
    (((sortDescBy (fun r => r.score) (dedupByProductId l)).take n).Pairwise
      (fun a b => a.productId ≠ b.productId)) := by
  have hperm := sortDescBy_perm (fun r : Recommendation => r.score)
    (dedupByProductId l)
  have hpw : (sortDescBy (fun r : Recommendation => r.score)
      (dedupByProductId l)).Pairwise (fun a b => a.productId ≠ b.productId) :=
    (List.Perm.pairwise_iff
      (R := fun a b : Recommendation => a.productId ≠ b.productId)
      (fun h => Ne.symm h) hperm).mpr (dedupByProductId_pairwise l)
  exact List.Pairwise.sublist (List.take_sublist n _) hpw

/-- Analysis stage returns ok when its model call does not throw. -/
theorem analyzeUserBehavior_ok (userPreferences : UserPreference)
    (o : ModelOracle) (h : isThrown o.analyze = false) :
    ∃ ua, analyzeUserBehavior userPreferences o = .ok ua := by
  cases hA : o.analyze with
  | error e => rw [hA] at h; simp [isThrown] at h
  | ok v =>
    cases v with
    | none =>
      exact ⟨defaultAnalysis userPreferences, by simp [analyzeUserBehavior, hA]⟩
    | some a => exact ⟨a, by simp [analyzeUserBehavior, hA]⟩

/-- Content-based stage returns ok when its model call is either not
consulted or does not throw. -/
theorem getContentBased_ok (products : List Product)
    (userPreferences : UserPreference) (userAnalysis : UserAnalysis)
    (o : ModelOracle)
    (h : contentStageConsulted products userPreferences →
      isThrown o.content = false) :
    ∃ recs, getContentBasedRecommendations products userPreferences
      userAnalysis o = .ok recs := by
  simp only [getContentBasedRecommendations]
  split
  · exact ⟨[], rfl⟩
  · rename_i hcond
    have hnt := h hcond
    cases hC : o.content with
    | error e => rw [hC] at hnt; simp [isThrown] at hnt
    | ok v =>
      cases v with
      | none => exact ⟨[], by simp [hC]⟩
      | some recs => exact ⟨recs, by simp [hC]⟩

/-- Collaborative stage returns ok exactly the collabStageList when its
model call does not throw. -/
theorem getCollaborative_eq (products : List Product)
    (userPreferences : UserPreference) (userAnalysis : UserAnalysis)
    (o : ModelOracle) (h : isThrown o.collab = false) :
    getCollaborativeRecommendations products userPreferences userAnalysis o =
      .ok (collabStageList o) := by
  cases hB : o.collab with
  | error e => rw [hB] at h; simp [isThrown] at h
  | ok v => cases v <;> simp [getCollaborativeRecommendations, collabStageList, hB]

/-- Merge stage on the deterministic path: a re-rank reply without JSON
yields the score-sorted de-duplicated union. -/
theorem combineAndRank_ok_none
    (contentRecommendations collaborativeRecommendations : List Recommendation)
    (userAnalysis : UserAnalysis) (o : ModelOracle) (h : o.rank = .ok none) :
    combineAndRankRecommendations contentRecommendations
        collaborativeRecommendations userAnalysis o =
      .ok (sortDescBy (fun r => r.score)
        (dedupByProductId
          (contentRecommendations ++ collaborativeRecommendations))) := by
  simp [combineAndRankRecommendations, h]

/-- Merge stage returns ok when its model call does not throw. -/
theorem combineAndRank_ok
    (contentRecommendations collaborativeRecommendations : List Recommendation)
    (userAnalysis : UserAnalysis) (o : ModelOracle)
    (h : isThrown o.rank = false) :
    ∃ recs, combineAndRankRecommendations contentRecommendations
      collaborativeRecommendations userAnalysis o = .ok recs := by
  cases hR : o.rank with
  | error e => rw [hR] at h; simp [isThrown] at h
  | ok v =>
    cases v with
    | none =>
      exact ⟨sortDescBy (fun r => r.score)
          (dedupByProductId
            (contentRecommendations ++ collaborativeRecommendations)),
        by simp [combineAndRankRecommendations, hR]⟩
    | some recs => exact ⟨recs, by simp [combineAndRankRecommendations, hR]⟩

/-- The pipeline returns ok when no issued model call throws. -/
theorem pipeline_ok (products : List Product)
    (userPreferences : UserPreference) (o : ModelOracle)
    (h : ¬ pipelineThrows products userPreferences o) :
    ∃ recs, recommendationPipeline products userPreferences o = .ok recs := by
  rw [pipelineThrows] at h
  push_neg at h
  obtain ⟨ha, hc, hb, hr⟩ := h
  obtain ⟨ua, hua⟩ := analyzeUserBehavior_ok userPreferences o (by simpa using ha)
  obtain ⟨c, hcc⟩ := getContentBased_ok products userPreferences ua o
    (fun hcons => by simpa using hc hcons)
  have hcb := getCollaborative_eq products userPreferences ua o (by simpa using hb)
  obtain ⟨recs, hrr⟩ := combineAndRank_ok c (collabStageList o) ua o
    (by simpa using hr)
  exact ⟨recs, by simp [recommendationPipeline, hua, hcc, hcb, hrr]⟩

/-- The pipeline throws when some issued model call throws. -/
theorem pipeline_error (products : List Product)
    (userPreferences : UserPreference) (o : ModelOracle)
    (h : pipelineThrows products userPreferences o) :
    isThrown (recommendationPipeline products userPreferences o) = true := by
  cases hA : o.analyze with
  | error e =>
    have hstage : analyzeUserBehavior userPreferences o = .error e := by
      simp [analyzeUserBehavior, hA]
    simp [recommendationPipeline, hstage, isThrown]
  | ok av =>
    obtain ⟨ua, hua⟩ := analyzeUserBehavior_ok userPreferences o
      (by simp [isThrown, hA])
    rcases h with h1 | h2 | h3 | h4
    · rw [hA] at h1; simp [isThrown] at h1
    · obtain ⟨hcons, hthr⟩ := h2
      cases hC : o.content with
      | ok v => rw [hC] at hthr; simp [isThrown] at hthr
      | error e =>
        have hstage : getContentBasedRecommendations products userPreferences
            ua o = .error e := by
          simp only [getContentBasedRecommendations]
          rw [if_neg hcons, hC]
        simp [recommendationPipeline, hua, hstage, isThrown]
    · cases hB : o.collab with
      | ok v => rw [hB] at h3; simp [isThrown] at h3
      | error e =>
        have hstage : getCollaborativeRecommendations products userPreferences
            ua o = .error e := by
          simp [getCollaborativeRecommendations, hB]
        cases hcres : getContentBasedRecommendations products userPreferences ua o with
        | error e2 => simp [recommendationPipeline, hua, hcres, isThrown]
        | ok c => simp [recommendationPipeline, hua, hcres, hstage, isThrown]
    · cases hR : o.rank with
      | ok v => rw [hR] at h4; simp [isThrown] at h4
      | error e =>
        cases hcres : getContentBasedRecommendations products userPreferences ua o with
        | error e2 => simp [recommendationPipeline, hua, hcres, isThrown]
        | ok c =>
          cases hbres : getCollaborativeRecommendations products userPreferences ua o with
          | error e3 => simp [recommendationPipeline, hua, hcres, hbres, isThrown]
          | ok cb =>
            simp [recommendationPipeline, hua, hcres, hbres,
              combineAndRankRecommendations, hR, isThrown]

/-- A throwing pipeline makes generateRecommendations return exactly the
fallback. -/
theorem generate_fallback_of_throws (userId : String)
    (products : List Product) (userPreferences : UserPreference)
    (maxRecommendations : ℕ) (o : ModelOracle)
    (h : pipelineThrows products userPreferences o) :
    generateRecommendations userId products userPreferences
        maxRecommendations o =
      getFallbackRecommendations products userPreferences maxRecommendations := by
  have herr := pipeline_error products userPreferences o h
  cases hp : recommendationPipeline products userPreferences o with
  | error e => simp [generateRecommendations, hp]
  | ok recs => rw [hp] at herr; simp [isThrown] at herr

/-- A successful pipeline makes generateRecommendations return its
truncation. -/
theorem generate_take_of_ok (userId : String) (products : List Product)
    (userPreferences : UserPreference) (maxRecommendations : ℕ)
    (o : ModelOracle) (recs : List Recommendation)
    (h : recommendationPipeline products userPreferences o = .ok recs) :
    generateRecommendations userId products userPreferences
        maxRecommendations o = recs.take maxRecommendations := by
  simp [generateRecommendations, h]

/-- C2: generateRecommendations never raises: it is a total function of
its inputs and of the model behaviour, including behaviours where any of
the four model calls throws or returns prose without JSON; whenever the
pipeline throws the call returns exactly the deterministic
getFallbackRecommendations, and otherwise the truncated pipeline result. -/
theorem generateRecommendations_never_fails (userId : String)
    (products : List Product) (userPreferences : UserPreference)
    (maxRecommendations : ℕ) (o : ModelOracle) :
    (pipelineThrows products userPreferences o →
        generateRecommendations userId products userPreferences
            maxRecommendations o =
          getFallbackRecommendations products userPreferences
            maxRecommendations) ∧
      (¬ pipelineThrows products userPreferences o →
        ∃ recs, recommendationPipeline products userPreferences o = .ok recs ∧
          generateRecommendations userId products userPreferences
              maxRecommendations o = recs.take maxRecommendations) := by
  constructor
  · exact generate_fallback_of_throws userId products userPreferences
      maxRecommendations o
  · intro h
    obtain ⟨recs, hr⟩ := pipeline_ok products userPreferences o h
    exact ⟨recs, hr, generate_take_of_ok userId products userPreferences
      maxRecommendations o recs hr⟩

/-- Witness for C2 at a concrete call whose model calls all throw. -/
theorem generateRecommendations_never_fails_witness :
    pipelineThrows [] emptyPrefs throwingOracle ∧
      generateRecommendations "u" [] emptyPrefs 5 throwingOracle =
        getFallbackRecommendations [] emptyPrefs 5 :=
  ⟨by decide,
    (generateRecommendations_never_fails "u" [] emptyPrefs 5
      throwingOracle).1 (by decide)⟩

/-- C1 counterexample: with a model whose re-rank reply lists the same
product twice (and no call throwing), generateRecommendations returns two
entries sharing a productId, so the claim fails as stated for arbitrary
model behaviour. -/
theorem generateRecommendations_dup_counterexample :
    ¬ ((generateRecommendations "u" [] emptyPrefs 10 badRankOracle).length
        ≤ 10 ∧
      (generateRecommendations "u" [] emptyPrefs 10 badRankOracle).Pairwise
        (fun a b => a.productId ≠ b.productId)) := by
  intro h
  have hpw := h.2
  have hgen : generateRecommendations "u" [] emptyPrefs 10 badRankOracle =
      [dupRec, dupRec] := by decide
  rw [hgen] at hpw
  exact (List.pairwise_cons.mp hpw).1 dupRec (List.mem_cons_self _ _) rfl

/-- C1 amended: the result length never exceeds maxRecommendations for any
model behaviour; and on the deterministic merge path (no issued model call
throws and the re-rank reply fails to parse) no two entries share a
productId.  When the re-rank reply parses it is returned as received and
may repeat ids, per the counterexample. -/
theorem generateRecommendations_length_nodup (userId : String)
    (products : List Product) (userPreferences : UserPreference)
    (maxRecommendations : ℕ) :
    (∀ o, (generateRecommendations userId products userPreferences
        maxRecommendations o).length ≤ maxRecommendations) ∧
      ∀ o, ¬ pipelineThrows products userPreferences o → o.rank = .ok none →
        (generateRecommendations userId products userPreferences
            maxRecommendations o).Pairwise
          (fun a b => a.productId ≠ b.productId) := by
  constructor
  · intro o
    cases hp : recommendationPipeline products userPreferences o with
    | ok recs =>
      rw [generate_take_of_ok userId products userPreferences
        maxRecommendations o recs hp]
      exact List.length_take_le _ _
    | error e =>
      have hgen : generateRecommendations userId products userPreferences
          maxRecommendations o =
          getFallbackRecommendations products userPreferences
            maxRecommendations := by
        simp [generateRecommendations, hp]
      rw [hgen]
      simp only [getFallbackRecommendations, List.length_map]
      exact List.length_take_le _ _
  · intro o hthrow hrank
    rw [pipelineThrows] at hthrow
    push_neg at hthrow
    obtain ⟨ha, hc, hb, _⟩ := hthrow
    obtain ⟨ua, hua⟩ := analyzeUserBehavior_ok userPreferences o
      (by simpa using ha)
    obtain ⟨c, hcc⟩ := getContentBased_ok products userPreferences ua o
      (fun hcons => by simpa using hc hcons)
    have hcb := getCollaborative_eq products userPreferences ua o
      (by simpa using hb)
    have hpipe : recommendationPipeline products userPreferences o =
        .ok (sortDescBy (fun r => r.score)
          (dedupByProductId (c ++ collabStageList o))) := by
      simp [recommendationPipeline, hua, hcc, hcb,
        combineAndRank_ok_none c (collabStageList o) ua o hrank]
    rw [generate_take_of_ok userId products userPreferences
      maxRecommendations o _ hpipe]
    exact pairwise_take_sorted_dedup _ _

/-- Witness for C1 amended at a concrete call whose model replies are all
prose (re-rank fails to parse, nothing throws). -/
theorem generateRecommendations_length_nodup_witness :
    (¬ pipelineThrows [] emptyPrefs proseOracle) ∧
      proseOracle.rank = .ok none ∧
      (generateRecommendations "u" [] emptyPrefs 10 proseOracle).Pairwise
        (fun a b => a.productId ≠ b.productId) :=
  ⟨by decide, rfl,
    (generateRecommendations_length_nodup "u" [] emptyPrefs 10).2 proseOracle
      (by decide) rfl⟩

/-- While the cap is not reached, folding trackInteractionLocal appends. -/
theorem foldl_trackInteractionLocal_no_evict :
    (events : List UserInteraction) → ∀ store : List UserInteraction,
      store.length + events.length ≤ 1000 →
      events.foldl (fun s i => trackInteractionLocal i s) store =
        store ++ events
  | [] => by intro store h; simp
  | e :: es => by
    intro store h
    simp only [List.foldl_cons]
    have hlen : ¬ (1000 < (store ++ [e]).length) := by
      simp only [List.length_append, List.length_cons, List.length_nil]
      simp only [List.length_cons] at h
      omega
    have hstep : trackInteractionLocal e store = store ++ [e] := by
      simp only [trackInteractionLocal]
      rw [if_neg hlen]
    rw [hstep]
    rw [foldl_trackInteractionLocal_no_evict es (store ++ [e])
      (by simp only [List.length_append, List.length_cons, List.length_nil]
          simp only [List.length_cons] at h
          omega)]
    simp

/-- C4: trackInteractionLocal leaves at most 1000 entries after any call,
and inserting 1001 events into the empty store keeps exactly the last
1000, evicting the first-inserted event (FIFO). -/
theorem trackInteractionLocal_cap_fifo :
    (∀ (i : UserInteraction) (store : List UserInteraction),
        (trackInteractionLocal i store).length ≤ 1000) ∧
      ∀ events : List UserInteraction, events.length = 1001 →
        events.foldl (fun s i => trackInteractionLocal i s) [] =
            events.drop 1 ∧
          (events.foldl (fun s i => trackInteractionLocal i s) []).length
            = 1000 := by
  constructor
  · intro i store
    simp only [trackInteractionLocal]
    by_cases h : 1000 < (store ++ [i]).length
    · rw [if_pos h, List.length_drop]
      omega
    · rw [if_neg h]
      omega
  · intro events hlen
    have hsplit : events.take 1000 ++ events.drop 1000 = events :=
      List.take_append_drop _ _
    have htl : (events.take 1000).length = 1000 := by
      rw [List.length_take]; omega
    have hdl : (events.drop 1000).length = 1 := by
      rw [List.length_drop]; omega
    obtain ⟨x, hx⟩ := List.length_eq_one.mp hdl
    have hfold : events.foldl (fun s i => trackInteractionLocal i s) [] =
        trackInteractionLocal x (events.take 1000) := by
      conv_lhs => rw [← hsplit]
      rw [List.foldl_append,
        foldl_trackInteractionLocal_no_evict (events.take 1000) []
          (by simp [htl]),
        hx]
      simp
    have hstep : trackInteractionLocal x (events.take 1000) =
        (events.take 1000).drop 1 ++ [x] := by
      simp only [trackInteractionLocal]
      have hgt : 1000 < (events.take 1000 ++ [x]).length := by
        simp [htl]
      rw [if_pos hgt]
      have h1 : (events.take 1000 ++ [x]).length - 1000 = 1 := by
        simp [htl]
      rw [h1, List.drop_append_of_le_length (by omega)]
    have hdropev : events.drop 1 = (events.take 1000).drop 1 ++ [x] := by
      conv_lhs => rw [← hsplit, hx]
      rw [List.drop_append_of_le_length (by omega)]
    constructor
    · rw [hfold, hstep, hdropev]
    · rw [hfold, hstep]
      simp only [List.length_append, List.length_drop, htl,
        List.length_cons, List.length_nil]

/-- Witness for C4 at 1001 concrete events. -/
theorem trackInteractionLocal_cap_fifo_witness :
    evtList.length = 1001 ∧
      (evtList.foldl (fun s i => trackInteractionLocal i s) [] =
          evtList.drop 1 ∧
        (evtList.foldl (fun s i => trackInteractionLocal i s) []).length
          = 1000) :=
  ⟨by simp [evtList],
    trackInteractionLocal_cap_fifo.2 evtList (by simp [evtList])⟩

/-- C8: a trackInteraction call whose auth lookup resolves to no user
returns without attempting a remote insert and leaves the local fallback
store unchanged. -/
theorem trackInteraction_no_user (interaction : TrackerInput)
    (o : TrackOracle) (sessionId : String)
    (store : List UserInteraction) (h : o.auth = .ok none) :
    trackInteraction interaction o sessionId store =
      { remoteInsertAttempted := false, store := store } := by
  simp [trackInteraction, h]

/-- Witness for C8 at a concrete call. -/
theorem trackInteraction_no_user_witness :
    noUserOracle.auth = .ok none ∧
      trackInteraction sampleInput noUserOracle "s" [] =
        { remoteInsertAttempted := false, store := [] } :=
  ⟨rfl, trackInteraction_no_user sampleInput noUserOracle "s" [] rfl⟩

/-- C7: getFallbackRecommendations keeps exactly the non-interacted
products whose category is preferred (no inStock filter exists: the
Product interface in this module has no such field), sorted descending by
rating average, truncated to maxRecommendations, each emitted as
fallbackRec: score average * 20, a category-based reason string, and the
fallback tag. -/
theorem getFallbackRecommendations_spec (products : List Product)
    (userPreferences : UserPreference) (maxRecommendations : ℕ) :
    ∃ sorted : List Product,
      sorted.Perm
          ((products.filter
              (fun p =>
                !((interactedProductIds userPreferences).contains p.id))).filter
            (fun p => userPreferences.preferredCategories.contains p.category)) ∧
        sorted.Pairwise (fun a b => b.ratings.average ≤ a.ratings.average) ∧
        getFallbackRecommendations products userPreferences
            maxRecommendations =
          (sorted.take maxRecommendations).map fallbackRec := by
  refine ⟨sortDescBy (fun p : Product => p.ratings.average)
      ((products.filter
          (fun p : Product =>
            !((interactedProductIds userPreferences).contains p.id))).filter
        (fun p : Product =>
          userPreferences.preferredCategories.contains p.category)),
    sortDescBy_perm _ _, sortDescBy_pairwise _ _, rfl⟩

/-- C10: with an empty preferredCategories list (as in the anonymous
default preferences), getFallbackRecommendations is empty for every
catalog and every bound; consequently a full pipeline failure for such a
user yields zero recommendations. -/
theorem fallback_empty_when_no_categories (products : List Product)
    (userPreferences : UserPreference) (maxRecommendations : ℕ)
    (h : userPreferences.preferredCategories = []) :
    getFallbackRecommendations products userPreferences maxRecommendations
        = [] ∧
      (∀ now, (getDefaultPreferences now).preferredCategories = []) ∧
      ∀ (userId : String) (o : ModelOracle),
        pipelineThrows products userPreferences o →
        generateRecommendations userId products userPreferences
          maxRecommendations o = [] := by
  have hfb : getFallbackRecommendations products userPreferences
      maxRecommendations = [] := by
    simp [getFallbackRecommendations, h, sortDescBy, List.contains]
  refine ⟨hfb, fun now => rfl, fun userId o hthrow => ?_⟩
  rw [generate_fallback_of_throws userId products userPreferences
    maxRecommendations o hthrow, hfb]

/-- Witness for C10 at a concrete catalog. -/
theorem fallback_empty_when_no_categories_witness :
    emptyPrefs.preferredCategories = [] ∧
      getFallbackRecommendations [target100] emptyPrefs 5 = [] :=
  ⟨rfl, (fallback_empty_when_no_categories [target100] emptyPrefs 5 rfl).1⟩

/-- C9 counterexample: for a user with empty interaction history, the
merged result need not derive from the collaborative stage or the
fallback: with a model whose re-rank reply parses, that reply is returned
as received, so the call returns entries (here dupRec, twice) that are in
neither the collaborative stage list (which replied with the empty array)
nor the fallback (which is empty for this user). -/
theorem contentBased_empty_history_counterexample :
    emptyPrefs.interactionHistory = [] ∧
      collabStageList badRankOracle = [] ∧
      getFallbackRecommendations [] emptyPrefs 10 = [] ∧
      generateRecommendations "u" [] emptyPrefs 10 badRankOracle =
        [dupRec, dupRec] ∧
      dupRec ∉ collabStageList badRankOracle :=
  ⟨rfl, rfl, rfl, by decide, by decide⟩

/-- C9 amended: with an empty interaction history the content-based stage
returns ok [] for every model behaviour (in particular without depending
on, or being able to throw from, its model call); on the deterministic
merge path every entry of the generated result comes from the
collaborative stage list, and when the pipeline throws the result is the
fallback.  When the re-rank reply parses it is returned as received and
may contain entries from neither source, per the counterexample. -/
theorem contentBased_empty_history (products : List Product)
    (userPreferences : UserPreference) (userAnalysis : UserAnalysis)
    (o : ModelOracle) (h : userPreferences.interactionHistory = []) :
    getContentBasedRecommendations products userPreferences userAnalysis o
        = .ok [] ∧
      (∀ (userId : String) (maxRecommendations : ℕ),
        ¬ pipelineThrows products userPreferences o → o.rank = .ok none →
        ∀ r ∈ generateRecommendations userId products userPreferences
          maxRecommendations o, r ∈ collabStageList o) ∧
      ∀ (userId : String) (maxRecommendations : ℕ),
        pipelineThrows products userPreferences o →
        generateRecommendations userId products userPreferences
            maxRecommendations o =
          getFallbackRecommendations products userPreferences
            maxRecommendations := by
  have hids : interactedProductIds userPreferences = [] := by
    simp [interactedProductIds, h]
  have hcontAll : ∀ ua2 : UserAnalysis,
      getContentBasedRecommendations products userPreferences ua2 o
        = .ok [] := by
    intro ua2
    simp [getContentBasedRecommendations, hids, List.contains]
  refine ⟨hcontAll userAnalysis,
    fun userId maxRecommendations hthrow hrank r hr => ?_,
    fun userId maxRecommendations hthrow =>
      generate_fallback_of_throws userId products userPreferences
        maxRecommendations o hthrow⟩
  rw [pipelineThrows] at hthrow
  push_neg at hthrow
  obtain ⟨ha, hc, hb, _⟩ := hthrow
  obtain ⟨ua, hua⟩ := analyzeUserBehavior_ok userPreferences o
    (by simpa using ha)
  have hcb := getCollaborative_eq products userPreferences ua o
    (by simpa using hb)
  have hpipe : recommendationPipeline products userPreferences o =
      .ok (sortDescBy (fun r => r.score)
        (dedupByProductId ([] ++ collabStageList o))) := by
    simp [recommendationPipeline, hua, hcontAll ua, hcb,
      combineAndRank_ok_none [] (collabStageList o) ua o hrank]
  rw [generate_take_of_ok userId products userPreferences
    maxRecommendations o _ hpipe] at hr
  have hr2 : r ∈ sortDescBy (fun r => r.score)
      (dedupByProductId ([] ++ collabStageList o)) :=
    (List.take_sublist _ _).subset hr
  have hr3 : r ∈ dedupByProductId ([] ++ collabStageList o) :=
    (sortDescBy_perm _ _).mem_iff.mp hr2
  have hr4 : r ∈ [] ++ collabStageList o := dedupAux_subset [] _ r hr3
  simpa using hr4

/-- Witness for C9 at a concrete call. -/
theorem contentBased_empty_history_witness :
    emptyPrefs.interactionHistory = [] ∧
      getContentBasedRecommendations [target100] emptyPrefs
        (defaultAnalysis emptyPrefs) proseOracle = .ok [] :=
  ⟨rfl, (contentBased_empty_history [target100] emptyPrefs
    (defaultAnalysis emptyPrefs) proseOracle rfl).1⟩

/-- C3 counterexample: getUserAnalytics is not local-only: through its
getUserPreferences call it reads the remote preference row, so with an
identical (empty) local store, two remote states differing only in that
row give different analytics. -/
theorem getUserAnalytics_reads_remote :
    (getUserAnalytics "u1" (prefsOracleWith ["a"])
        emptyLocalStore).preferredCategories = ["a"] ∧
      (getUserAnalytics "u1" (prefsOracleWith ["b"])
          emptyLocalStore).preferredCategories = ["b"] ∧
      getUserAnalytics "u1" (prefsOracleWith ["a"]) emptyLocalStore ≠
        getUserAnalytics "u1" (prefsOracleWith ["b"]) emptyLocalStore := by
  refine ⟨by decide, by decide, by decide⟩

/-- C3 amended: the five interaction-derived aggregates of
getUserAnalytics depend only on the local store and the clock, never on
the remote store; the preference-derived fields go through
getUserPreferences, which does consult the remote store (see the
counterexample), so the call as a whole is not local-only. -/
theorem getUserAnalytics_local_aggregates (userId : String)
    (o o2 : PrefsOracle) (store : LocalStore) (hnow : o.now = o2.now) :
    (getUserAnalytics userId o store).totalInteractions =
        (getUserAnalytics userId o2 store).totalInteractions ∧
      (getUserAnalytics userId o store).interactionCounts =
        (getUserAnalytics userId o2 store).interactionCounts ∧
      (getUserAnalytics userId o store).categoryViews =
        (getUserAnalytics userId o2 store).categoryViews ∧
      (getUserAnalytics userId o store).avgSessionDuration =
        (getUserAnalytics userId o2 store).avgSessionDuration ∧
      (getUserAnalytics userId o store).recentActivity =
        (getUserAnalytics userId o2 store).recentActivity := by
  refine ⟨?_, ?_, ?_, ?_, ?_⟩ <;> simp [getUserAnalytics, hnow]

/-- Witness for C3 amended at two concrete remote states sharing the
clock. -/
theorem getUserAnalytics_local_aggregates_witness :
    (prefsOracleWith ["a"]).now = (prefsOracleWith ["b"]).now ∧
      ((getUserAnalytics "u1" (prefsOracleWith ["a"])
            emptyLocalStore).totalInteractions =
          (getUserAnalytics "u1" (prefsOracleWith ["b"])
            emptyLocalStore).totalInteractions ∧
        (getUserAnalytics "u1" (prefsOracleWith ["a"])
            emptyLocalStore).interactionCounts =
          (getUserAnalytics "u1" (prefsOracleWith ["b"])
            emptyLocalStore).interactionCounts ∧
        (getUserAnalytics "u1" (prefsOracleWith ["a"])
            emptyLocalStore).categoryViews =
          (getUserAnalytics "u1" (prefsOracleWith ["b"])
            emptyLocalStore).categoryViews ∧
        (getUserAnalytics "u1" (prefsOracleWith ["a"])
            emptyLocalStore).avgSessionDuration =
          (getUserAnalytics "u1" (prefsOracleWith ["b"])
            emptyLocalStore).avgSessionDuration ∧
        (getUserAnalytics "u1" (prefsOracleWith ["a"])
            emptyLocalStore).recentActivity =
          (getUserAnalytics "u1" (prefsOracleWith ["b"])
            emptyLocalStore).recentActivity) :=
  ⟨rfl, getUserAnalytics_local_aggregates "u1" (prefsOracleWith ["a"])
    (prefsOracleWith ["b"]) emptyLocalStore rfl⟩

/-- C5: the similar-products fallback keeps exactly the same-category
products other than the target, in ascending order of absolute price
difference, each scored 80 minus a tenth of that difference with no
clamping; concretely, for a 100-dollar target the 90-dollar candidate
(score 79) ranks above the 150-dollar one (score 75), and a 2000-dollar
candidate scores a negative -110. -/
theorem getSimilarProducts_fallback_spec (targetProduct : Product)
    (allProducts : List Product) (maxResults : ℕ) :
    (∃ sorted : List Product,
        sorted.Perm (allProducts.filter
            (fun p => (p.id != targetProduct.id) &&
              (p.category == targetProduct.category))) ∧
          sorted.Pairwise (fun a b =>
            |a.price - targetProduct.price| ≤
              |b.price - targetProduct.price|) ∧
          getSimilarProducts targetProduct allProducts maxResults
              (.ok none) =
            (sorted.take maxResults).map (similarRec targetProduct)) ∧
      getSimilarProducts target100 [p150, p90] 5 (.error ()) =
        [similarRec target100 p90, similarRec target100 p150] ∧
      (similarRec target100 p90).score = 79 ∧
      (similarRec target100 p150).score = 75 ∧
      (similarRec target100 pFar).score = -110 := by
  have hfilter : [p150, p90].filter
      (fun p => (p.id != target100.id) &&
        (p.category == target100.category)) = [p150, p90] := by
    simp +decide [p150, p90, target100, mkProduct]
  have hsort : sortAscBy (fun p => |p.price - target100.price|)
      [p150, p90] = [p90, p150] := by
    simp only [sortAscBy, sortDescBy, List.foldl_cons, List.foldl_nil,
      insertDescBy]
    rw [if_pos]
    rw [OrderDual.toDual_lt_toDual]
    norm_num [p90, p150, target100, mkProduct]
  have hconc : getSimilarProducts target100 [p150, p90] 5 (.error ()) =
      [similarRec target100 p90, similarRec target100 p150] := by
    show ((sortAscBy (fun p => |p.price - target100.price|)
        ([p150, p90].filter (fun p => (p.id != target100.id) &&
          (p.category == target100.category)))).take 5).map
      (similarRec target100) = _
    rw [hfilter, hsort]
    rfl
  refine ⟨⟨sortAscBy (fun p : Product => |p.price - targetProduct.price|)
      (allProducts.filter (fun p : Product => (p.id != targetProduct.id) &&
        (p.category == targetProduct.category))),
    sortAscBy_perm _ _, sortAscBy_pairwise _ _, rfl⟩,
    hconc,
    by norm_num [similarRec, target100, p90, mkProduct],
    by norm_num [similarRec, target100, p150, mkProduct],
    by norm_num [similarRec, target100, pFar, mkProduct]⟩

/-- Trending-key comparison for the concrete example products: product B
(average 4.5 over 5 reviews) keys strictly below product A (average 4.0
over 100 reviews). -/
theorem trendingKey_B_lt_A :
    trendingFallbackKey prodB < trendingFallbackKey prodA := by
  have hB : trendingFallbackKey prodB = (9 / 2 : ℝ) * Real.log 6 := by
    simp [trendingFallbackKey, prodB, mkProduct]
    norm_num
  have hA : trendingFallbackKey prodA = (4 : ℝ) * Real.log 101 := by
    simp [trendingFallbackKey, prodA, mkProduct]
    norm_num
  rw [hB, hA]
  have hlog6 : Real.log 6 < 2 := by
    rw [Real.log_lt_iff_lt_exp (by norm_num)]
    have he : Real.exp 2 = Real.exp 1 ^ 2 := by
      rw [show (2:ℝ) = ((2:ℕ) : ℝ) * 1 by norm_num, Real.exp_nat_mul]
    nlinarith [Real.exp_one_gt_d9]
  have hlog101 : (4:ℝ) < Real.log 101 := by
    rw [Real.lt_log_iff_exp_lt (by norm_num)]
    have he : Real.exp 4 = Real.exp 1 ^ 4 := by
      rw [show (4:ℝ) = ((4:ℕ) : ℝ) * 1 by norm_num, Real.exp_nat_mul]
    have h2 : Real.exp 1 ^ 4 < 2.7182818286 ^ 4 :=
      pow_lt_pow_left₀ Real.exp_one_lt_d9 (le_of_lt (Real.exp_pos 1))
        (by norm_num)
    have h3 : (2.7182818286 : ℝ) ^ 4 < 101 := by norm_num
    linarith
  have hpos : 0 < Real.log 6 := Real.log_pos (by norm_num)
  nlinarith [hlog6, hlog101, hpos]

/-- C6: the trending fallback returns the top maxResults products ordered
by descending average * log(count + 1), each emitted as trendingRec;
concretely product A (average 4.0, 100 reviews) ranks above product B
(average 4.5, 5 reviews) because 4 * log 101 exceeds 4.5 * log 6. -/
theorem getTrendingProducts_fallback_spec :
    (∀ (products : List Product) (maxResults : ℕ),
        ∃ sorted : List Product,
          sorted.Perm products ∧
            sorted.Pairwise (fun a b =>
              trendingFallbackKey b ≤ trendingFallbackKey a) ∧
            getTrendingProducts products maxResults (.ok none) =
              (sorted.take maxResults).map trendingRec) ∧
      getTrendingProducts [prodB, prodA] 2 (.error ()) =
        [trendingRec prodA, trendingRec prodB] := by
  constructor
  · intro products maxResults
    exact ⟨sortDescBy trendingFallbackKey products,
      sortDescBy_perm _ _, sortDescBy_pairwise _ _, rfl⟩
  · show ((sortDescBy trendingFallbackKey [prodB, prodA]).take 2).map
      trendingRec = _
    have hsort : sortDescBy trendingFallbackKey [prodB, prodA] =
        [prodA, prodB] := by
      simp only [sortDescBy, List.foldl_cons, List.foldl_nil, insertDescBy]
      rw [if_pos trendingKey_B_lt_A]
    rw [hsort]
    rfl
